import Mathlib

/-!
Verification development for the Holos-Chatbot repository (`src/holos`).

The definitions below are a shallow embedding of the Python source:
* `PyVal`, `Params`, `dumps`, `sha256hex`, `CSMRunner.*` embed
  `src/holos/csm_runner.py` (json.dumps with sort_keys, SHA-256 fingerprint,
  functools.lru_cache(maxsize=256)).
* `Context`, `heuristic_extract`, `find_missing`, `next_followup`,
  `ensure_context` embed `src/holos/conversation.py`.
* `GraphState`, `can_run_csm`, `node_synthesize`, `runGraph`, `load_weather`
  embed `src/holos/multi_source_rag.py` / `src/holos/weather.py`.
* `mergeContext` embeds the session merge in `src/holos/api.py` (`chat`).
* `appendExchange` / `getHistory` are modelled from the spec (see their
  doc comments) because no exchange-history store exists under `src/`.

Machine integers of the SHA-256 computation are `Nat` with explicit
`% 2 ^ 32`; fallible Python code (serialization, collaborator calls)
returns `Except`.
-/

set_option maxRecDepth 8000

namespace Holos

/-- Values a simulation-parameter dict can hold in this development:
Python strings, Python `None`, or a non-JSON-serializable object
(anything `json.dumps` rejects with a `TypeError`). -/
inductive PyVal where
  | str (s : String)
  | null
  | obj
deriving DecidableEq, Repr

/-- A Python dict in insertion order: association list of key/value pairs.
Dicts have no duplicate keys; where that matters it appears as a
`keysNodup` hypothesis. -/
abbrev Params := List (String × PyVal)

/-- Python `d[k]` / `d.get(k)`: first (only, for nodup keys) binding wins. -/
def pLookup (k : String) : Params → Option PyVal
  | [] => Option.none
  | (k', v) :: t => if k' = k then some v else pLookup k t

/-- The keys of a dict, in insertion order. -/
def keysOf (p : Params) : List String := p.map Prod.fst

/-- A real Python dict never has duplicate keys. -/
def keysNodup (p : Params) : Prop := (keysOf p).Nodup

instance (p : Params) : Decidable (keysNodup p) := by
  unfold keysNodup; infer_instance

/-! ### json.dumps(params, sort_keys=True), as used by `CSMRunner._key` -/

/-- One hex digit, lowercase (as Python produces). -/
def hexDigit (n : Nat) : Char :=
  if n < 10 then Char.ofNat (48 + n) else Char.ofNat (87 + n)

/-- A `\uXXXX` escape for a 16-bit code unit. -/
def uEscape (n : Nat) : List Char :=
  ['\\', 'u', hexDigit (n / 4096 % 16), hexDigit (n / 256 % 16),
   hexDigit (n / 16 % 16), hexDigit (n % 16)]

/-- How `json.dumps` (default `ensure_ascii=True`) renders one character of
a string: printable ASCII other than quote and backslash kept, the short
escapes for the usual control characters, `\uXXXX` otherwise (surrogate
pairs above the BMP). -/
def jsonEscapeChar (c : Char) : List Char :=
  if c = '"' then ['\\', '"']
  else if c = '\\' then ['\\', '\\']
  else if c = Char.ofNat 8 then ['\\', 'b']
  else if c = Char.ofNat 12 then ['\\', 'f']
  else if c = '\n' then ['\\', 'n']
  else if c = '\r' then ['\\', 'r']
  else if c = '\t' then ['\\', 't']
  else if 32 ≤ c.toNat ∧ c.toNat ≤ 126 then [c]
  else if c.toNat < 65536 then uEscape c.toNat
  else
    uEscape (55296 + (c.toNat - 65536) / 1024) ++
      uEscape (56320 + (c.toNat - 65536) % 1024)

/-- A JSON string literal: quotes around the escaped characters. -/
def jsonQuote (s : String) : List Char :=
  '"' :: (s.data.foldr (fun c acc => jsonEscapeChar c ++ acc) ['"'])

/-- Raised by our model of `json.dumps` where Python raises `TypeError`
for a non-serializable value (the spec's `ParameterEncodingError`). -/
inductive EncodingErr where
  | notSerializable
deriving DecidableEq, Repr

deriving instance DecidableEq for Except

/-- Serialize one value: strings quoted, `None` as `null`, anything else
is a `TypeError` in Python. -/
def encodePyVal : PyVal → Except EncodingErr (List Char)
  | .str s => .ok (jsonQuote s)
  | .null => .ok ['n', 'u', 'l', 'l']
  | .obj => .error .notSerializable

/-- One `"key": value` item (json.dumps' default key separator `": "`). -/
def renderItem (kv : String × PyVal) : Except EncodingErr (List Char) :=
  match encodePyVal kv.2 with
  | .error e => .error e
  | .ok v => .ok (jsonQuote kv.1 ++ ':' :: ' ' :: v)

/-- The items joined with json.dumps' default item separator `", "`.
Items are emitted left to right, so the first bad value aborts. -/
def renderItems : List (String × PyVal) → Except EncodingErr (List Char)
  | [] => .ok []
  | kv :: rest =>
    match renderItem kv, rest with
    | .error e, _ => .error e
    | .ok a, [] => .ok a
    | .ok a, r :: rs =>
      match renderItems (r :: rs) with
      | .error e => .error e
      | .ok b => .ok (a ++ ',' :: ' ' :: b)

/-- Python string comparison (`s1 <= s2`): lexicographic on code points,
as `sorted` uses on the dict keys. -/
def strLeb : List Char → List Char → Bool
  | [], _ => true
  | _ :: _, [] => false
  | a :: as, b :: bs =>
    if a = b then strLeb as bs else decide (a.toNat < b.toNat)

/-- Key order of `sorted` in json.dumps: compare the (string) keys. -/
def keyLE (a b : String × PyVal) : Prop := strLeb a.1.data b.1.data = true

instance : DecidableRel keyLE := fun a b =>
  inferInstanceAs (Decidable (strLeb a.1.data b.1.data = true))

/-- `sort_keys=True`: the dict items sorted by key. -/
def sortByKey (p : Params) : Params := List.insertionSort keyLE p

def lbrace : Char := Char.ofNat 123

def rbrace : Char := Char.ofNat 125

/-- `json.dumps(params, sort_keys=True)` restricted to one flat dict of
`PyVal`s, exactly as `CSMRunner._key` uses it. -/
def dumps (p : Params) : Except EncodingErr String :=
  match renderItems (sortByKey p) with
  | .error e => .error e
  | .ok l => .ok (String.mk (lbrace :: l ++ [rbrace]))

/-! ### SHA-256 (`hashlib.sha256(...).hexdigest()`), over `Nat` mod `2 ^ 32` -/

/-- UTF-8 encoding of one scalar value (Python `str.encode()`). -/
def utf8Char (c : Char) : List Nat :=
  let n := c.toNat
  if n < 128 then [n]
  else if n < 2048 then [192 + n / 64, 128 + n % 64]
  else if n < 65536 then [224 + n / 4096, 128 + n / 64 % 64, 128 + n % 64]
  else [240 + n / 262144, 128 + n / 4096 % 64, 128 + n / 64 % 64, 128 + n % 64]

/-- UTF-8 bytes of a string. -/
def utf8 (s : String) : List Nat :=
  s.data.foldr (fun c acc => utf8Char c ++ acc) []

def w32 : Nat := 2 ^ 32

/-- 32-bit rotate right. -/
def rotr (k n : Nat) : Nat :=
  ((n >>> k) ||| (n <<< (32 - k))) % w32

/-- The SHA-256 round constants. -/
def shaK : List Nat :=
  [1116352408, 1899447441, 3049323471, 3921009573, 961987163,
   1508970993, 2453635748, 2870763221, 3624381080, 310598401,
   607225278, 1426881987, 1925078388, 2162078206, 2614888103,
   3248222580, 3835390401, 4022224774, 264347078, 604807628,
   770255983, 1249150122, 1555081692, 1996064986, 2554220882,
   2821834349, 2952996808, 3210313671, 3336571891, 3584528711,
   113926993, 338241895, 666307205, 773529912, 1294757372,
   1396182291, 1695183700, 1986661051, 2177026350, 2456956037,
   2730485921, 2820302411, 3259730800, 3345764771, 3516065817,
   3600352804, 4094571909, 275423344, 430227734, 506948616,
   659060556, 883997877, 958139571, 1322822218, 1537002063,
   1747873779, 1955562222, 2024104815, 2227730452, 2361852424,
   2428436474, 2756734187, 3204031479, 3329325298]

/-- The SHA-256 initial hash state. -/
def shaH0 : List Nat :=
  [1779033703, 3144134277, 1013904242, 2773480762,
   1359893119, 2600822924, 528734635, 1541459225]

/-- Pad a message to a multiple of 64 bytes: `0x80`, zeros, 64-bit length. -/
def sha256pad (msg : List Nat) : List Nat :=
  let len := msg.length
  let zeros := (64 - (len + 9) % 64) % 64
  let bitLen := len * 8
  msg ++ 128 :: List.replicate zeros 0 ++
    [bitLen / 2 ^ 56 % 256, bitLen / 2 ^ 48 % 256, bitLen / 2 ^ 40 % 256,
     bitLen / 2 ^ 32 % 256, bitLen / 2 ^ 24 % 256, bitLen / 2 ^ 16 % 256,
     bitLen / 2 ^ 8 % 256, bitLen % 256]

/-- The 16 big-endian 32-bit words of one 64-byte block. -/
def blockWords (b : List Nat) : List Nat :=
  (List.range 16).map fun i =>
    b.getD (4 * i) 0 * 2 ^ 24 + b.getD (4 * i + 1) 0 * 2 ^ 16 +
      b.getD (4 * i + 2) 0 * 2 ^ 8 + b.getD (4 * i + 3) 0

/-- Extend the 16 block words to the 64-entry message schedule. -/
def msgSchedule (b : List Nat) : List Nat :=
  (List.range 48).foldl
    (fun w _ =>
      let n := w.length
      let s0 := (rotr 7 (w.getD (n - 15) 0)) ^^^ (rotr 18 (w.getD (n - 15) 0)) ^^^
        ((w.getD (n - 15) 0) >>> 3)
      let s1 := (rotr 17 (w.getD (n - 2) 0)) ^^^ (rotr 19 (w.getD (n - 2) 0)) ^^^
        ((w.getD (n - 2) 0) >>> 10)
      w ++ [(w.getD (n - 16) 0 + s0 + w.getD (n - 7) 0 + s1) % w32])
    (blockWords b)

/-- One SHA-256 compression of a 64-byte block into the 8-word state. -/
def sha256compress (h : List Nat) (b : List Nat) : List Nat :=
  let w := msgSchedule b
  let st := (List.range 64).foldl
    (fun st i =>
      match st with
      | [a, b', c, d, e, f, g, hh] =>
        let s1 := (rotr 6 e) ^^^ (rotr 11 e) ^^^ (rotr 25 e)
        let ch := (e &&& f) ^^^ ((w32 - 1 - e) &&& g)
        let t1 := (hh + s1 + ch + shaK.getD i 0 + w.getD i 0) % w32
        let s0 := (rotr 2 a) ^^^ (rotr 13 a) ^^^ (rotr 22 a)
        let maj := (a &&& b') ^^^ (a &&& c) ^^^ (b' &&& c)
        let t2 := (s0 + maj) % w32
        [(t1 + t2) % w32, a, b', c, (d + t1) % w32, e, f, g]
      | other => other)
    h
  (List.range 8).map fun i => (h.getD i 0 + st.getD i 0) % w32

/-- SHA-256 digest (32 bytes) of a byte list. -/
def sha256 (msg : List Nat) : List Nat :=
  let padded := sha256pad msg
  let final := (List.range (padded.length / 64)).foldl
    (fun h i => sha256compress h ((padded.drop (64 * i)).take 64))
    shaH0
  final.foldr (fun word acc =>
    word / 2 ^ 24 % 256 :: word / 2 ^ 16 % 256 :: word / 2 ^ 8 % 256 ::
      word % 256 :: acc) []

/-- `hashlib.sha256(s.encode()).hexdigest()`. -/
def sha256hex (s : String) : String :=
  String.mk ((sha256 (utf8 s)).foldr
    (fun byte acc => hexDigit (byte / 16) :: hexDigit (byte % 16) :: acc) [])

/-! ### CSMRunner (`src/holos/csm_runner.py`) -/

/-- Python slicing `s[:n]` on a str: the first `n` characters. -/
def strTake (s : String) (n : Nat) : String := String.mk (s.data.take n)

/-- The fixed-shape result dict returned by `CSMRunner._cached_run`. -/
structure SimResult where
  sim_id : String
  yield_kg_ha : Nat
  planting_date : String
  maturity_date : String
  irrigation_mm : Nat
  ratoon_possible : Bool
  notes : String
deriving DecidableEq, Repr

/-- The body of `_cached_run`: the stub result, a pure function of the
cache key (the `time.sleep(0.3)` delay has no observable effect here). -/
def simCompute (key : String) : SimResult :=
  { sim_id := strTake key 8
    yield_kg_ha := 7800
    planting_date := "auto"
    maturity_date := "auto+120d"
    irrigation_mm := 900
    ratoon_possible := true
    notes := "Stub CSM. Plug in your model in csm_runner.py." }

/-- The `functools.lru_cache` state: entries most-recently-used first. -/
abbrev Cache := List (String × SimResult)

/-- The invariant of every cache state reachable from the empty cache:
each stored value is the stub computation of its own key. -/
def CacheWF (c : Cache) : Prop := ∀ kv ∈ c, kv.2 = simCompute kv.1

instance (c : Cache) : Decidable (CacheWF c) := by
  unfold CacheWF; infer_instance

/-- Find an entry and remove it from its position (for MRU reordering). -/
def lruExtract (key : String) : Cache → Option (SimResult × Cache)
  | [] => Option.none
  | (k, v) :: t =>
    if k = key then some (v, t)
    else
      match lruExtract key t with
      | some (v', t') => some (v', (k, v) :: t')
      | Option.none => Option.none

namespace CSMRunner

/-- `@lru_cache(maxsize=256) _cached_run(key)`: on a hit the entry moves to
the front and nothing is computed; on a miss `simCompute` runs once, the
entry is inserted in front, and the least-recently-used entry beyond
capacity 256 is dropped.  The third component counts how many times the
underlying computation executed (0 or 1). -/
def cachedRun (cache : Cache) (key : String) : SimResult × Cache × Nat :=
  match lruExtract key cache with
  | some (v, rest) => (v, (key, v) :: rest, 0)
  | Option.none =>
    let v := simCompute key
    (v, ((key, v) :: cache).take 256, 1)

/-- `CSMRunner._key`: SHA-256 hex digest of the key-sorted JSON dump;
fails when a parameter value is not serializable. -/
def key (params : Params) : Except EncodingErr String :=
  match dumps params with
  | .error e => .error e
  | .ok s => .ok (sha256hex s)

/-- `CSMRunner.run`: compute the key, then call the cached stub.  A
serialization failure surfaces before the cache is touched, so a failing
call leaves the cache unchanged and computes nothing. -/
def run (cache : Cache) (params : Params) :
    Except EncodingErr SimResult × Cache × Nat :=
  match key params with
  | .error e => (.error e, cache, 0)
  | .ok k =>
    let (v, c', n) := cachedRun cache k
    (.ok v, c', n)

end CSMRunner

/-! ### Context and heuristic extraction (`src/holos/conversation.py`) -/

/-- The structured context dict.  The source passes a plain dict around;
every key the repository ever reads or writes is one of these seven, each
holding a string when present (`Option.none` models an absent key, so
`some ""` is a key explicitly present with an empty value). -/
structure Context where
  crop : Option String := Option.none
  region : Option String := Option.none
  state : Option String := Option.none
  season : Option String := Option.none
  soil : Option String := Option.none
  water : Option String := Option.none
  planting_method : Option String := Option.none
deriving DecidableEq, Repr

/-- Python truthiness of `ctx.get(field)`: `None` and `""` are falsy,
any non-empty string is truthy. -/
def pyTruthy : Option String → Bool
  | Option.none => false
  | some s => !s.isEmpty

/-- Whether `needle` starts `hay`. -/
def isPrefOf : List Char → List Char → Bool
  | [], _ => true
  | _ :: _, [] => false
  | a :: as, b :: bs => a == b && isPrefOf as bs

/-- Python `needle in hay` on strings: substring containment. -/
def containsSub (needle : List Char) : List Char → Bool
  | [] => isPrefOf needle []
  | c :: t => isPrefOf needle (c :: t) || containsSub needle t

/-- Python `str.lower()` (the repository only feeds it ASCII). -/
def pyLower (s : String) : String := String.mk (s.data.map Char.toLower)

/-- Python `str.title()`: the first letter of each alphabetic run is
upper-cased, the rest lower-cased. -/
def pyTitleGo : Bool → List Char → List Char
  | _, [] => []
  | prevAlpha, c :: t =>
    (if c.isAlpha then (if prevAlpha then c.toLower else c.toUpper) else c) ::
      pyTitleGo c.isAlpha t

def pyTitle (s : String) : String := String.mk (pyTitleGo false s.data)

/-- The fixed crop vocabulary scanned in order by `heuristic_extract`. -/
def cropVocab : List String :=
  ["rice", "wheat", "corn", "maize", "soy", "soybean", "cotton", "sorghum"]

/-- `US_STATES`: the dict of recognized state names, in insertion order. -/
def US_STATES : List (String × String) := [("california", "CA"), ("texas", "TX")]

def springWords : List String := ["spring", "march", "april", "may"]

def fallWords : List String := ["fall", "autumn", "sept", "oct"]

/-- One iteration of the crop loop of `heuristic_extract`: if the word
occurs in the lowered message and `out.get("crop")` is falsy, set
`out["crop"]` (with `"rice"` kept literal). -/
def cropStep (msg : List Char) (o : Context) (c : String) : Context :=
  if containsSub c.data msg && !pyTruthy o.crop then
    { o with crop := some (if c = "rice" then "rice" else c) }
  else o

/-- The crop loop of `heuristic_extract`: the vocabulary scanned in its
fixed order (the loop has no break; the guard makes the first hit win). -/
def cropLoop (msg : List Char) (out : Context) : Context :=
  cropVocab.foldl (cropStep msg) out

/-- The first vocabulary word occurring as a substring of the lowercased
message, if any. -/
def cropDetect (message : String) : Option String :=
  cropVocab.find? fun c => containsSub c.data (pyLower message).data

/-- The region/state loop: the first state name occurring in the message
sets a titled region name and the abbreviation together, then breaks; a
truthy pre-existing region suppresses the whole loop. -/
def regionLoop (msg : List Char) (out : Context) : Context :=
  if pyTruthy out.region then out
  else
    match US_STATES.find? (fun nv => containsSub nv.1.data msg) with
    | some nv => { out with region := some (pyTitle nv.1), state := some nv.2 }
    | Option.none => out

/-- The two season checks: spring keywords first, then fall keywords,
each only when season is still falsy. -/
def seasonStep (msg : List Char) (out : Context) : Context :=
  let o1 :=
    if springWords.any (fun word => containsSub word.data msg) && !pyTruthy out.season
    then { out with season := some "spring" } else out
  if fallWords.any (fun word => containsSub word.data msg) && !pyTruthy o1.season
  then { o1 with season := some "fall" } else o1

/-- `heuristic_extract(message, context)`: copy the context, lower the
message (`msg = message.lower()`), then run the crop, region/state, and
season detections on it. -/
def heuristic_extract (message : String) (context : Context) : Context :=
  seasonStep (pyLower message).data
    (regionLoop (pyLower message).data (cropLoop (pyLower message).data context))

/-- `CRITICAL`: the only mandatory field. -/
def CRITICAL : List String := ["crop"]

/-- Python `ctx.get(f)` over the seven known fields. -/
def ctxGet (ctx : Context) (f : String) : Option String :=
  if f = "crop" then ctx.crop
  else if f = "region" then ctx.region
  else if f = "state" then ctx.state
  else if f = "season" then ctx.season
  else if f = "soil" then ctx.soil
  else if f = "water" then ctx.water
  else if f = "planting_method" then ctx.planting_method
  else Option.none

/-- `find_missing`: the critical fields whose value is falsy. -/
def find_missing (ctx : Context) : List String :=
  CRITICAL.filter (fun f => !pyTruthy (ctxGet ctx f))

/-- The `prompts` dict in `next_followup`. -/
def prompts (f : String) : Option String :=
  if f = "crop" then some "Which crop are you asking about?" else Option.none

/-- A Python exception escaping a pipeline node (`str(e)` payload). -/
structure PyErr where
  msg : String
deriving DecidableEq, Repr

/-- `next_followup`: empty when nothing is missing, otherwise the prompt
for the first missing field; a missing prompt is a `KeyError`. -/
def next_followup (missing : List String) : Except PyErr String :=
  match missing with
  | [] => .ok ""
  | f :: _ =>
    match prompts f with
    | some p => .ok p
    | Option.none => .error ⟨"KeyError"⟩

/-- `ensure_context(message, context)`: extract (`ctx`), find missing,
then ask `next_followup` (whose `KeyError`, were one possible, would
propagate). -/
def ensure_context (message : String) (context : Option Context) :
    Except PyErr (Context × List String × String) :=
  match next_followup (find_missing (heuristic_extract message (context.getD {}))) with
  | .error e => .error e
  | .ok follow =>
    .ok (heuristic_extract message (context.getD {}),
      find_missing (heuristic_extract message (context.getD {})), follow)

/-! ### The pipeline (`src/holos/multi_source_rag.py`) -/

/-- A retrieved document: a `{"content": ..., "metadata": ...}` dict as
produced by `RAGRetriever.retrieve`. -/
structure Doc where
  content : String
  metadata : List (String × PyVal)
deriving DecidableEq, Repr

/-- The analytics (CSV) result dict and the weather dict are opaque string
keyed dicts to the pipeline. -/
abbrev PyDict := List (String × PyVal)

/-- One `{"source": ..., "page": ...}` entry of the `sections.sources`
list built in `node_synthesize`. -/
structure SourceRef where
  source : PyVal
  page : PyVal
deriving DecidableEq, Repr

/-- `sections["csm_results"]`: the simulation result dict, or the literal
skip-note dict when `state.get("csm")` is falsy. -/
inductive CsmSection where
  | results (r : SimResult)
  | note (msg : String)
deriving DecidableEq, Repr

/-- The `sections` dict assembled by `node_synthesize`
(`recommendations` is always `None` there, so it is omitted; the
`assumptions` dict always has the single key `missing`). -/
structure Sections where
  rag_insights : List Doc
  csv_findings : PyDict
  weather_context : PyDict
  csm_results : CsmSection
  assumptions_missing : List String
  sources : List SourceRef
deriving DecidableEq, Repr

/-- `GraphState` (TypedDict, total=False): `message` is always supplied by
the entry point; every other key is optional. -/
structure GraphState where
  message : String
  session_id : String := ""
  context : Option Context := Option.none
  missing : Option (List String) := Option.none
  followup : Option String := Option.none
  docs : Option (List Doc) := Option.none
  csv : Option PyDict := Option.none
  weather : Option PyDict := Option.none
  csm : Option SimResult := Option.none
  reply : Option String := Option.none
  sections : Option Sections := Option.none
deriving DecidableEq, Repr

/-- `can_run_csm(state)`: `bool(ctx.get("crop")) and bool(ctx.get("region"))`
on `state.get("context", {}) or {}`. -/
def can_run_csm (state : GraphState) : Bool :=
  let ctx := state.context.getD {}
  pyTruthy ctx.crop && pyTruthy ctx.region

/-- The params dict built by `node_csm`, in its insertion order; a present
string becomes a JSON string, an absent key contributes `None`. -/
def paramsOfContext (ctx : Context) : Params :=
  [("crop", (ctx.crop.map PyVal.str).getD PyVal.null),
   ("region", (ctx.region.map PyVal.str).getD PyVal.null),
   ("season", (ctx.season.map PyVal.str).getD PyVal.null),
   ("soil", (ctx.soil.map PyVal.str).getD PyVal.null),
   ("water", (ctx.water.map PyVal.str).getD PyVal.null),
   ("planting_method", (ctx.planting_method.map PyVal.str).getD PyVal.null)]

/-- The literal fallback reply of `node_synthesize` when the LLM call
raises (`f"I hit an issue synthesizing the answer: {e}. ..."`). -/
def mkApology (e : String) : String :=
  "I hit an issue synthesizing the answer: " ++ e ++
    ". Here are the findings from docs and data."

/-- The literal skip note used for `sections["csm_results"]`. -/
def csmSkipNote : String := "CSM skipped until crop+region are provided."

/-- The sources list of `node_synthesize`: for each doc,
`{"source": m.get("source", ""), "page": m.get("page", None)}`. -/
def sourcesOf (docs : List Doc) : List SourceRef :=
  docs.map fun d =>
    { source := (pLookup "source" d.metadata).getD (PyVal.str "")
      page := (pLookup "page" d.metadata).getD PyVal.null }

/-- `node_synthesize`: the LLM call is the only fallible step and its
exception is caught, so the node is total.  `llmOutcome` is the outcome
of `llm.invoke` (the generation collaborator). -/
def node_synthesize (state : GraphState) (llmOutcome : Except PyErr String) :
    GraphState :=
  let docs := state.docs.getD []
  let csv := state.csv.getD []
  let weather := state.weather.getD []
  let ctx := state.context.getD {}
  let follow := state.followup.getD ""
  let reply :=
    match llmOutcome with
    | .ok r => r
    | .error e => mkApology e.msg
  let reply :=
    if !follow.isEmpty then
      reply ++ "\n\nQuick question to tailor the advice: " ++ follow
    else reply
  let sections : Sections :=
    { rag_insights := docs.take 3
      csv_findings := csv
      weather_context := weather
      csm_results :=
        match state.csm with
        | some r => .results r
        | Option.none => .note csmSkipNote
      assumptions_missing := (state.missing).getD []
      sources := sourcesOf docs }
  { state with reply := some reply, sections := some sections, context := some ctx }

/-- The conditional edge and the `csm1`/`synthesize1` tail of the graph:
`can_run_csm` gates `node_csm` (which would re-raise a serialization
`TypeError`), then `node_synthesize` runs in both branches. -/
def csmStage (cache : Cache) (st : GraphState)
    (llmOutcome : Except PyErr String) :
    Except PyErr (GraphState × Cache × Nat) :=
  if can_run_csm st then
    match CSMRunner.run cache (paramsOfContext (st.context.getD {})) with
    | (.ok r, c', n) =>
      .ok (node_synthesize { st with csm := some r } llmOutcome, c', n)
    | (.error _, _, _) => .error ⟨"TypeError"⟩
  else
    .ok (node_synthesize st llmOutcome, cache, 0)

/-- The compiled graph of `build_graph`, executed on one input state:
context1 → docs1 → csv1 → weather1 → (csm1 when `can_run_csm`) →
synthesize1.  The three collaborator calls and the LLM call are passed in
as outcomes; none of the nodes guards them with try/except, so a raising
collaborator propagates and aborts the run.  The result carries the
updated simulation cache and the number of simulation computations. -/
def runGraph (cache : Cache) (state0 : GraphState)
    (docsOutcome : Except PyErr (List Doc))
    (csvOutcome : Except PyErr PyDict)
    (weatherOutcome : Except PyErr PyDict)
    (llmOutcome : Except PyErr String) :
    Except PyErr (GraphState × Cache × Nat) :=
  match ensure_context state0.message state0.context with
  | .error e => .error e
  | .ok (ctx, missing, follow) =>
    match docsOutcome with
    | .error e => .error e
    | .ok docs =>
      match csvOutcome with
      | .error e => .error e
      | .ok csv =>
        match weatherOutcome with
        | .error e => .error e
        | .ok weather =>
          csmStage cache
            { state0 with
              context := some ctx, missing := some missing,
              followup := some follow, docs := some docs, csv := some csv,
              weather := some weather }
            llmOutcome

/-! ### Weather lookup (`src/holos/weather.py`) -/

/-- Python `s.replace(" ", "_")`. -/
def underscored (s : String) : String :=
  String.mk (s.data.map fun c => if c = ' ' then '_' else c)

/-- The literal fallback dict returned by `load_weather` when no candidate
file yields data. -/
def weatherFallback : PyDict :=
  [("note", PyVal.str
    "No weather file found; add JSON to data/weather/ (region.json or state.json).")]

/-- Walk the candidate paths: a path may be absent (`Option.none`), present
but unreadable/invalid JSON (`some (.error ())` — swallowed by the inner
try/except), or readable (`some (.ok dict)`). -/
def weatherScan (fs : String → Option (Except Unit PyDict)) :
    List String → PyDict
  | [] => weatherFallback
  | p :: rest =>
    match fs p with
    | some (.ok w) => w
    | _ => weatherScan fs rest

/-- `load_weather(context)`: region file, then state file, then the
default file, with the filesystem abstracted as `fs`. -/
def load_weather (fs : String → Option (Except Unit PyDict))
    (context : Context) : PyDict :=
  let region := underscored (pyLower (context.region.getD ""))
  let state := underscored (pyLower (context.state.getD ""))
  let candidates :=
    (if !region.isEmpty then ["data/weather/" ++ region ++ ".json"] else []) ++
      (if !state.isEmpty then ["data/weather/" ++ state ++ ".json"] else []) ++
      ["data/weather/default.json"]
  weatherScan fs candidates

/-! ### The chat boundary (`src/holos/api.py`) -/

/-- Field-level view of `{**prior, **supplied}`: a key present in the
supplied dict (even with value `""`) overwrites, an absent key keeps the
prior value. -/
def mergeField (p s : Option String) : Option String :=
  match s with
  | some v => some v
  | Option.none => p

/-- `merged_context = {**prior, **(req.context or {})}` in `chat`. -/
def mergeContext (prior : Context) (supplied : Option Context) : Context :=
  match supplied with
  | Option.none => prior
  | some s =>
    { crop := mergeField prior.crop s.crop
      region := mergeField prior.region s.region
      state := mergeField prior.state s.state
      season := mergeField prior.season s.season
      soil := mergeField prior.soil s.soil
      water := mergeField prior.water s.water
      planting_method := mergeField prior.planting_method s.planting_method }

/-! ### Session exchange history -/

/-- One stored (user message, assistant reply) pair. -/
abbrev Exchange := String × String

/-- Modelled from the spec: `SessionStore.appendExchange` (spec §4.3) is
missing from `src/` — `api.py` persists only `SESSION_CTX` context and
`simple_rag.ChatProcessor.process_message` merely consumes a caller-
provided history list.  Per the spec, appending "evicts the oldest
exchange once length exceeds 4, preserving order". -/
def appendExchange (h : List Exchange) (userMsg botMsg : String) :
    List Exchange :=
  let h' := h ++ [(userMsg, botMsg)]
  if 4 < h'.length then h'.drop (h'.length - 4) else h'

/-- Modelled from the spec: `SessionStore.getHistory` (spec §4.3) returns
the stored exchanges oldest first, length at most 4. -/
def getHistory (h : List Exchange) : List Exchange := h

/-! ## Lemmas about truthiness and the extraction loops -/

theorem pyTruthy_iff (v : Option String) :
    pyTruthy v = true ↔ ∃ s, v = some s ∧ s ≠ "" := by
  cases v with
  | none => simp [pyTruthy]
  | some s =>
    constructor
    · intro h
      refine ⟨s, rfl, fun he => ?_⟩
      rw [he] at h
      exact absurd h (by decide)
    · rintro ⟨t, ht, hne⟩
      injection ht with ht'
      subst ht'
      cases hh : s.isEmpty with
      | false => simp [pyTruthy, hh]
      | true => exact absurd ((String.isEmpty_iff s).mp hh) hne

theorem pyTruthy_some_ne (s : String) (h : s ≠ "") : pyTruthy (some s) = true := by
  rw [pyTruthy_iff]; exact ⟨s, rfl, h⟩

theorem riceMap_eq (c : String) : (if c = "rice" then "rice" else c) = c := by
  split
  · simp [*]
  · rfl

theorem cropStep_of_truthy (msg : List Char) (o : Context) (c : String)
    (h : pyTruthy o.crop = true) : cropStep msg o c = o := by
  simp [cropStep, h]

theorem cropFold_of_truthy (msg : List Char) (l : List String) (o : Context)
    (h : pyTruthy o.crop = true) : l.foldl (cropStep msg) o = o := by
  induction l with
  | nil => rfl
  | cons c t ih => simp [List.foldl_cons, cropStep_of_truthy msg o c h, ih]

theorem cropStep_region (msg : List Char) (o : Context) (c : String) :
    (cropStep msg o c).region = o.region ∧
      (cropStep msg o c).state = o.state ∧
      (cropStep msg o c).season = o.season ∧
      (cropStep msg o c).soil = o.soil ∧
      (cropStep msg o c).water = o.water ∧
      (cropStep msg o c).planting_method = o.planting_method := by
  unfold cropStep
  split <;> simp

theorem cropFold_others (msg : List Char) (l : List String) (o : Context) :
    (l.foldl (cropStep msg) o).region = o.region ∧
      (l.foldl (cropStep msg) o).state = o.state ∧
      (l.foldl (cropStep msg) o).season = o.season ∧
      (l.foldl (cropStep msg) o).soil = o.soil ∧
      (l.foldl (cropStep msg) o).water = o.water ∧
      (l.foldl (cropStep msg) o).planting_method = o.planting_method := by
  induction l generalizing o with
  | nil => simp
  | cons c t ih =>
    have hs := cropStep_region msg o c
    have ht := ih (cropStep msg o c)
    simp only [List.foldl_cons]
    exact ⟨ht.1.trans hs.1, ht.2.1.trans hs.2.1, ht.2.2.1.trans hs.2.2.1,
      ht.2.2.2.1.trans hs.2.2.2.1, ht.2.2.2.2.1.trans hs.2.2.2.2.1,
      ht.2.2.2.2.2.trans hs.2.2.2.2.2⟩

theorem cropFold_find (msg : List Char) (l : List String) (o : Context)
    (h : pyTruthy o.crop = false) (hne : ∀ c ∈ l, c ≠ "") :
    (l.foldl (cropStep msg) o).crop =
      match l.find? (fun c => containsSub c.data msg) with
      | some c => some c
      | Option.none => o.crop := by
  induction l generalizing o with
  | nil => simp
  | cons c t ih =>
    cases hc : containsSub c.data msg with
    | true =>
      have hcne : c ≠ "" := hne c (List.mem_cons_self c t)
      have hstep : cropStep msg o c = { o with crop := some c } := by
        simp [cropStep, hc, h, riceMap_eq]
      have htru : pyTruthy ({ o with crop := some c } : Context).crop = true :=
        pyTruthy_some_ne c hcne
      simp [List.foldl_cons, hstep, cropFold_of_truthy msg t _ htru,
        List.find?_cons, hc]
    | false =>
      have hstep : cropStep msg o c = o := by
        simp [cropStep, hc]
      simp only [List.foldl_cons, hstep, List.find?_cons, hc]
      exact ih o h fun x hx => hne x (List.mem_cons_of_mem _ hx)

theorem regionLoop_others (msg : List Char) (o : Context) :
    (regionLoop msg o).crop = o.crop ∧
      (regionLoop msg o).season = o.season ∧
      (regionLoop msg o).soil = o.soil ∧
      (regionLoop msg o).water = o.water ∧
      (regionLoop msg o).planting_method = o.planting_method := by
  unfold regionLoop
  split
  · simp
  · split <;> simp

theorem regionLoop_of_truthy (msg : List Char) (o : Context)
    (h : pyTruthy o.region = true) : regionLoop msg o = o := by
  simp [regionLoop, h]

theorem seasonStep_others (msg : List Char) (o : Context) :
    (seasonStep msg o).crop = o.crop ∧
      (seasonStep msg o).region = o.region ∧
      (seasonStep msg o).state = o.state ∧
      (seasonStep msg o).soil = o.soil ∧
      (seasonStep msg o).water = o.water ∧
      (seasonStep msg o).planting_method = o.planting_method := by
  dsimp only [seasonStep]
  split_ifs <;> simp

theorem seasonStep_of_truthy (msg : List Char) (o : Context)
    (h : pyTruthy o.season = true) : seasonStep msg o = o := by
  have h1 : ¬ (((springWords.any fun word => containsSub word.data msg) &&
      !pyTruthy o.season) = true) := by simp [h]
  dsimp only [seasonStep]
  rw [if_neg h1, if_neg (by simp [h])]

theorem heuristic_extract_crop (message : String) (ctx : Context)
    (h : pyTruthy ctx.crop = false) :
    (heuristic_extract message ctx).crop =
      match cropDetect message with
      | some c => some c
      | Option.none => ctx.crop := by
  unfold heuristic_extract cropDetect
  rw [(seasonStep_others _ _).1, (regionLoop_others _ _).1]
  exact cropFold_find _ cropVocab ctx h (by decide)

theorem heuristic_extract_crop_truthy (message : String) (ctx : Context)
    (h : pyTruthy ctx.crop = true) :
    (heuristic_extract message ctx).crop = ctx.crop := by
  unfold heuristic_extract
  rw [(seasonStep_others _ _).1, (regionLoop_others _ _).1]
  unfold cropLoop
  rw [cropFold_of_truthy _ _ _ h]

/-! ## C2: the simulation branch predicate -/

/-- C2: for every context `ctx` carried by the pipeline state,
`can_run_csm` is true iff both the crop field and the region field are
present and non-empty; it is false in every other combination. -/
theorem claim_C2_can_run_csm (st : GraphState) (ctx : Context)
    (h : st.context = some ctx) :
    can_run_csm st = true ↔
      ((∃ s, ctx.crop = some s ∧ s ≠ "") ∧ (∃ s, ctx.region = some s ∧ s ≠ "")) := by
  rw [← pyTruthy_iff, ← pyTruthy_iff]
  simp [can_run_csm, h]

/-- C2 witness: concrete instance at a context with both fields set. -/
theorem claim_C2_can_run_csm_witness :
    can_run_csm { message := "m", context := some { crop := some "rice", region := some "Texas" } } = true ↔
      ((∃ s, (some "rice" : Option String) = some s ∧ s ≠ "") ∧
        (∃ s, (some "Texas" : Option String) = some s ∧ s ≠ "")) :=
  claim_C2_can_run_csm
    { message := "m", context := some { crop := some "rice", region := some "Texas" } }
    { crop := some "rice", region := some "Texas" } rfl

/-! ## C5: bounded exchange history (modelled from the spec) -/

/-- C5: appending five exchanges to one session's empty history leaves
exactly the last four, oldest first, the first evicted; and the stored
history never exceeds capacity 4. -/
theorem claim_C5_history_bound :
    (∀ u1 b1 u2 b2 u3 b3 u4 b4 u5 b5 : String,
      getHistory (appendExchange (appendExchange (appendExchange
        (appendExchange (appendExchange [] u1 b1) u2 b2) u3 b3) u4 b4) u5 b5) =
        [(u2, b2), (u3, b3), (u4, b4), (u5, b5)]) ∧
    (∀ (h : List Exchange) (u b : String),
      (appendExchange h u b).length ≤ 4) := by
  constructor
  · intro u1 b1 u2 b2 u3 b3 u4 b4 u5 b5
    rfl
  · intro h u b
    dsimp only [appendExchange]
    split
    all_goals simp_all [List.length_drop]
    all_goals omega

/-! ## C7: generation failure handled by the synthesis node -/

/-- C7: when the generation collaborator raises, `node_synthesize` still
returns (never propagates the failure): the reply is the fixed-format
apology embedding the failure detail (with the follow-up question appended
when one exists, per §4.5), and the structured sections are populated from
whatever stage data is present — first three documents, analytics,
weather, simulation-or-skip-note, missing-field assumptions, and
normalized sources. -/
theorem claim_C7_generation_failure (st : GraphState) (e : PyErr) :
    (node_synthesize st (.error e)).reply = some (
      if !(st.followup.getD "").isEmpty then
        mkApology e.msg ++ "\n\nQuick question to tailor the advice: " ++
          st.followup.getD ""
      else mkApology e.msg) ∧
    (node_synthesize st (.error e)).sections = some
      { rag_insights := (st.docs.getD []).take 3
        csv_findings := st.csv.getD []
        weather_context := st.weather.getD []
        csm_results :=
          match st.csm with
          | some r => .results r
          | Option.none => .note csmSkipNote
        assumptions_missing := st.missing.getD []
        sources := sourcesOf (st.docs.getD []) } :=
  ⟨rfl, rfl⟩

/-! ## C8: substring-based crop detection -/

/-- C8: with no truthy prior crop, the extracted crop is exactly the first
element of the fixed vocabulary list occurring as a substring of the
lowercased message (unchanged when none occurs).  Matching is
substring-based, so "price" triggers `crop="rice"` and "soybean" yields
`crop="soy"` (see the witness). -/
theorem claim_C8_substring_detection (message : String) (ctx : Context)
    (h : pyTruthy ctx.crop = false) :
    (heuristic_extract message ctx).crop =
      match cropDetect message with
      | some c => some c
      | Option.none => ctx.crop :=
  heuristic_extract_crop message ctx h

/-! ## C3: fields already set are (mostly) not overwritten -/

theorem heuristic_extract_region_truthy (message : String) (ctx : Context)
    (h : pyTruthy ctx.region = true) :
    (heuristic_extract message ctx).region = ctx.region ∧
      (heuristic_extract message ctx).state = ctx.state := by
  unfold heuristic_extract cropLoop
  have h1 := cropFold_others ((pyLower message).data) cropVocab ctx
  have hr : pyTruthy (cropVocab.foldl (cropStep (pyLower message).data) ctx).region = true := by
    rw [h1.1]; exact h
  rw [regionLoop_of_truthy _ _ hr]
  exact ⟨((seasonStep_others _ _).2.1).trans h1.1, ((seasonStep_others _ _).2.2.1).trans h1.2.1⟩

theorem heuristic_extract_season_truthy (message : String) (ctx : Context)
    (h : pyTruthy ctx.season = true) :
    (heuristic_extract message ctx).season = ctx.season := by
  unfold heuristic_extract cropLoop
  have h1 := cropFold_others ((pyLower message).data) cropVocab ctx
  have h2 := regionLoop_others ((pyLower message).data)
    (cropVocab.foldl (cropStep (pyLower message).data) ctx)
  have hs : pyTruthy (regionLoop (pyLower message).data
      (cropVocab.foldl (cropStep (pyLower message).data) ctx)).season = true := by
    rw [h2.2.1, h1.2.2.1]; exact h
  rw [seasonStep_of_truthy _ _ hs, h2.2.1, h1.2.2.1]

theorem heuristic_extract_const_fields (message : String) (ctx : Context) :
    (heuristic_extract message ctx).soil = ctx.soil ∧
      (heuristic_extract message ctx).water = ctx.water ∧
      (heuristic_extract message ctx).planting_method = ctx.planting_method := by
  unfold heuristic_extract cropLoop
  have h1 := cropFold_others ((pyLower message).data) cropVocab ctx
  have h2 := regionLoop_others ((pyLower message).data)
    (cropVocab.foldl (cropStep (pyLower message).data) ctx)
  have h3 := seasonStep_others ((pyLower message).data)
    (regionLoop (pyLower message).data
      (cropVocab.foldl (cropStep (pyLower message).data) ctx))
  exact ⟨(h3.2.2.2.1.trans h2.2.2.1).trans h1.2.2.2.1,
    (h3.2.2.2.2.1.trans h2.2.2.2.1).trans h1.2.2.2.2.1,
    (h3.2.2.2.2.2.trans h2.2.2.2.2).trans h1.2.2.2.2.2⟩

/-- C3 counterexample: the claim as stated is false for the `state` field.
In the context `{state: "CA"}` (state set non-empty, region absent) the
message "texas" makes `heuristic_extract` overwrite `state` with "TX". -/
theorem claim_C3_counterexample :
    (({ state := some "CA" } : Context).state = some "CA" ∧ "CA" ≠ "") ∧
      (heuristic_extract "texas" { state := some "CA" }).state = some "TX" ∧
      (heuristic_extract "texas" { state := some "CA" }).state ≠
        ({ state := some "CA" } : Context).state := by
  refine ⟨⟨rfl, by decide⟩, ?_, ?_⟩ <;> decide

/-- C3 amended: heuristic extraction never overwrites a non-empty `crop`,
`region` or `season`, never touches `soil`, `water` or `planting_method`,
and preserves `state` whenever `region` is also set non-empty; only
`state` can be overwritten, and only when `region` is absent or empty. -/
theorem claim_C3_amended (message : String) (ctx : Context) :
    (pyTruthy ctx.crop = true →
      (heuristic_extract message ctx).crop = ctx.crop) ∧
    (pyTruthy ctx.region = true →
      (heuristic_extract message ctx).region = ctx.region ∧
        (heuristic_extract message ctx).state = ctx.state) ∧
    (pyTruthy ctx.season = true →
      (heuristic_extract message ctx).season = ctx.season) ∧
    (heuristic_extract message ctx).soil = ctx.soil ∧
    (heuristic_extract message ctx).water = ctx.water ∧
    (heuristic_extract message ctx).planting_method = ctx.planting_method := by
  refine ⟨fun h => heuristic_extract_crop_truthy message ctx h,
    fun h => heuristic_extract_region_truthy message ctx h,
    fun h => heuristic_extract_season_truthy message ctx h,
    ?_, ?_, ?_⟩
  · exact (heuristic_extract_const_fields message ctx).1
  · exact (heuristic_extract_const_fields message ctx).2.1
  · exact (heuristic_extract_const_fields message ctx).2.2

/-- C3 amended, witness: a fully-set context survives a message naming a
different crop, state and season. -/
theorem claim_C3_amended_witness :
    (heuristic_extract "wheat in california this fall" { crop := some "rice", region := some "Texas", state := some "TX", season := some "spring" }).crop = some "rice" ∧
      (heuristic_extract "wheat in california this fall" { crop := some "rice", region := some "Texas", state := some "TX", season := some "spring" }).region = some "Texas" ∧
      (heuristic_extract "wheat in california this fall" { crop := some "rice", region := some "Texas", state := some "TX", season := some "spring" }).state = some "TX" ∧
      (heuristic_extract "wheat in california this fall" { crop := some "rice", region := some "Texas", state := some "TX", season := some "spring" }).season = some "spring" := by
  have h := claim_C3_amended "wheat in california this fall"
    { crop := some "rice", region := some "Texas", state := some "TX", season := some "spring" }
  exact ⟨h.1 rfl, (h.2.1 rfl).1, (h.2.1 rfl).2, h.2.2.1 rfl⟩

theorem ctxGet_crop (ctx : Context) : ctxGet ctx "crop" = ctx.crop := rfl

theorem find_missing_eq (ctx : Context) :
    find_missing ctx = if pyTruthy ctx.crop then [] else ["crop"] := by
  unfold find_missing CRITICAL
  rw [List.filter_cons, List.filter_nil]
  cases h : pyTruthy ctx.crop <;> simp [ctxGet_crop, h]

theorem cropDetect_mem {message c : String} (h : cropDetect message = some c) :
    c ∈ cropVocab :=
  List.mem_of_find?_eq_some h

theorem cropDetect_ne_empty {message c : String}
    (h : cropDetect message = some c) : c ≠ "" := by
  intro he
  subst he
  exact absurd (cropDetect_mem h) (by decide)

/-! ## Serialization lemmas (for C1, C6, C9) -/

theorem renderItems_obj {l : List (String × PyVal)} {k : String}
    (h : (k, PyVal.obj) ∈ l) :
    renderItems l = .error .notSerializable := by
  induction l with
  | nil => cases h
  | cons kv t ih =>
    rcases List.mem_cons.mp h with h1 | h1
    · cases h1.symm
      cases t <;> rfl
    · cases t with
      | nil => cases h1
      | cons r rs =>
        cases hkv : renderItem kv with
        | error e => cases e; simp [renderItems, hkv]
        | ok a => simp [renderItems, hkv, ih h1]

theorem mem_sortByKey {p : Params} {kv : String × PyVal} :
    kv ∈ sortByKey p ↔ kv ∈ p := by
  unfold sortByKey
  exact List.mem_insertionSort keyLE

theorem dumps_obj {p : Params} {k : String} (h : (k, PyVal.obj) ∈ p) :
    dumps p = .error .notSerializable := by
  unfold dumps
  rw [renderItems_obj (mem_sortByKey.mpr h)]

theorem renderItems_ok {l : List (String × PyVal)}
    (h : ∀ kv ∈ l, kv.2 ≠ PyVal.obj) : ∃ a, renderItems l = .ok a := by
  induction l with
  | nil => exact ⟨[], rfl⟩
  | cons kv t ih =>
    have hkv : kv.2 ≠ PyVal.obj := h kv (List.mem_cons_self kv t)
    have hok : ∃ a, renderItem kv = .ok a := by
      cases hv : kv.2 with
      | str s =>
        exact ⟨jsonQuote kv.1 ++ ':' :: ' ' :: jsonQuote s,
          by simp [renderItem, encodePyVal, hv]⟩
      | null =>
        exact ⟨jsonQuote kv.1 ++ ':' :: ' ' :: ['n', 'u', 'l', 'l'],
          by simp [renderItem, encodePyVal, hv]⟩
      | obj => exact absurd hv hkv
    obtain ⟨a, ha⟩ := hok
    cases t with
    | nil => exact ⟨a, by simp [renderItems, ha]⟩
    | cons r rs =>
      obtain ⟨b, hb⟩ := ih fun x hx => h x (List.mem_cons_of_mem _ hx)
      exact ⟨a ++ ',' :: ' ' :: b, by simp [renderItems, ha, hb]⟩

theorem dumps_ok {p : Params} (h : ∀ kv ∈ p, kv.2 ≠ PyVal.obj) :
    ∃ s, dumps p = .ok s := by
  obtain ⟨a, ha⟩ := renderItems_ok fun kv hkv => h kv (mem_sortByKey.mp hkv)
  exact ⟨String.mk (lbrace :: a ++ [rbrace]), by simp [dumps, ha]⟩

/-! ## C6: non-serializable parameters fail without touching the cache -/

/-- C6: a parameter mapping holding a non-serializable value makes
`CSMRunner.run` fail with the encoding error, and the failing call leaves
the cache unchanged and performs no computation. -/
theorem claim_C6_encoding_error (p : Params) (cache : Cache) (k : String)
    (h : (k, PyVal.obj) ∈ p) :
    CSMRunner.run cache p = (.error .notSerializable, cache, 0) := by
  unfold CSMRunner.run CSMRunner.key
  rw [dumps_obj h]

/-- C6 witness: the singleton dict with one non-serializable value. -/
theorem claim_C6_encoding_error_witness :
    CSMRunner.run [] [("crop", PyVal.obj)] =
      (.error .notSerializable, [], 0) :=
  claim_C6_encoding_error [("crop", PyVal.obj)] [] "crop"
    (List.mem_singleton.mpr rfl)

/-! ## C1: order-insensitive fingerprints and at-most-once computation -/

theorem pLookup_some_mem {l : Params} {k : String} {v : PyVal}
    (h : pLookup k l = some v) : (k, v) ∈ l := by
  induction l with
  | nil => cases h
  | cons kv t ih =>
    obtain ⟨k', v'⟩ := kv
    by_cases hk : k' = k
    · subst hk
      rw [pLookup, if_pos rfl] at h
      injection h with h'
      subst h'
      exact List.mem_cons_self _ _
    · rw [pLookup, if_neg hk] at h
      exact List.mem_cons_of_mem _ (ih h)

theorem mem_keysOf {l : Params} {k : String} {v : PyVal}
    (h : (k, v) ∈ l) : k ∈ keysOf l :=
  List.mem_map_of_mem Prod.fst h

theorem mem_pLookup_of_nodup {l : Params} {k : String} {v : PyVal}
    (hn : keysNodup l) (h : (k, v) ∈ l) : pLookup k l = some v := by
  induction l with
  | nil => cases h
  | cons kv t ih =>
    obtain ⟨k', v'⟩ := kv
    have hn' := hn
    rw [keysNodup, keysOf, List.map_cons, List.nodup_cons] at hn'
    rcases List.mem_cons.mp h with h1 | h1
    · cases h1.symm
      rw [pLookup, if_pos rfl]
    · have hk : k' ≠ k := by
        intro he
        subst he
        exact hn'.1 (mem_keysOf h1)
      rw [pLookup, if_neg hk]
      exact ih hn'.2 h1

theorem pLookup_none_iff {l : Params} {k : String} :
    pLookup k l = Option.none ↔ k ∉ keysOf l := by
  induction l with
  | nil => simp [pLookup, keysOf]
  | cons kv t ih =>
    obtain ⟨k', v'⟩ := kv
    by_cases hk : k' = k
    · subst hk
      simp [pLookup, keysOf]
    · rw [pLookup, if_neg hk, keysOf, List.map_cons]
      simp only [List.mem_cons]
      constructor
      · intro h hmem
        rcases hmem with h1 | h1
        · exact hk h1.symm
        · exact (ih.mp h) h1
      · intro h
        exact ih.mpr fun hmem => h (Or.inr hmem)

theorem keysOf_perm_sortByKey (p : Params) :
    List.Perm (keysOf (sortByKey p)) (keysOf p) :=
  (List.perm_insertionSort keyLE p).map Prod.fst

theorem keysNodup_sortByKey {p : Params} (h : keysNodup p) :
    keysNodup (sortByKey p) :=
  (List.Perm.nodup_iff (keysOf_perm_sortByKey p)).mpr h

theorem pLookup_sortByKey {p : Params} (hn : keysNodup p) (k : String) :
    pLookup k (sortByKey p) = pLookup k p := by
  cases hl : pLookup k p with
  | some v =>
    exact mem_pLookup_of_nodup (keysNodup_sortByKey hn)
      (mem_sortByKey.mpr (pLookup_some_mem hl))
  | none =>
    rw [pLookup_none_iff]
    intro hmem
    exact (pLookup_none_iff.mp hl)
      ((keysOf_perm_sortByKey p).mem_iff.mp hmem)

theorem char_toNat_inj {a b : Char} (h : a.toNat = b.toNat) : a = b :=
  Char.eq_of_val_eq (UInt32.ext h)

theorem string_data_inj {s t : String} (h : s.data = t.data) : s = t :=
  String.toList_inj.mp h

theorem strLeb_total : ∀ x y : List Char, strLeb x y = true ∨ strLeb y x = true := by
  intro x
  induction x with
  | nil => intro y; left; rfl
  | cons a as ih =>
    intro y
    cases y with
    | nil => right; rfl
    | cons b bs =>
      by_cases hab : a = b
      · subst hab
        rcases ih bs with h | h
        · left; simp [strLeb, h]
        · right; simp [strLeb, h]
      · by_cases hn : a.toNat < b.toNat
        · left
          rw [strLeb, if_neg hab]
          exact decide_eq_true hn
        · have hba : b.toNat < a.toNat := by
            rcases Nat.lt_trichotomy a.toNat b.toNat with h | h | h
            · exact absurd h hn
            · exact absurd (char_toNat_inj h) hab
            · exact h
          right
          rw [strLeb, if_neg fun he => hab he.symm]
          exact decide_eq_true hba

theorem strLeb_trans : ∀ x y z : List Char, strLeb x y = true →
    strLeb y z = true → strLeb x z = true := by
  intro x
  induction x with
  | nil => intros; rfl
  | cons a as ih =>
    intro y z hxy hyz
    cases y with
    | nil => cases hxy
    | cons b bs =>
      cases z with
      | nil => cases hyz
      | cons c cs =>
        by_cases hab : a = b <;> by_cases hbc : b = c
        · subst hab; subst hbc
          rw [strLeb, if_pos rfl] at hxy hyz ⊢
          exact ih bs cs hxy hyz
        · subst hab
          rw [strLeb, if_pos rfl] at hxy
          rw [strLeb, if_neg hbc] at hyz ⊢
          exact hyz
        · subst hbc
          rw [strLeb, if_neg hab] at hxy ⊢
          exact hxy
        · rw [strLeb, if_neg hab] at hxy
          rw [strLeb, if_neg hbc] at hyz
          have h1 := of_decide_eq_true hxy
          have h2 := of_decide_eq_true hyz
          have hac : a.toNat < c.toNat := lt_trans h1 h2
          have hne : a ≠ c := fun he => by
            rw [he] at hac
            exact absurd hac (lt_irrefl _)
          rw [strLeb, if_neg hne]
          exact decide_eq_true hac

theorem strLeb_antisymm : ∀ x y : List Char, strLeb x y = true →
    strLeb y x = true → x = y := by
  intro x
  induction x with
  | nil =>
    intro y _ hyx
    cases y with
    | nil => rfl
    | cons b bs => cases hyx
  | cons a as ih =>
    intro y hxy hyx
    cases y with
    | nil => cases hxy
    | cons b bs =>
      by_cases hab : a = b
      · subst hab
        rw [strLeb, if_pos rfl] at hxy hyx
        rw [ih bs hxy hyx]
      · rw [strLeb, if_neg hab] at hxy
        rw [strLeb, if_neg fun he => hab he.symm] at hyx
        have h1 := of_decide_eq_true hxy
        have h2 := of_decide_eq_true hyx
        exact absurd (lt_trans h1 h2) (lt_irrefl _)

/-- Strict key ordering of the sorted items of a dict with distinct keys:
adjacent-closed pairwise order plus key distinctness. -/
theorem strictSorted_sortByKey {p : Params} (hn : keysNodup p) :
    (sortByKey p).Pairwise fun a b => a.1 ≠ b.1 ∧ keyLE a b := by
  haveI : IsTotal (String × PyVal) keyLE :=
    ⟨fun a b => strLeb_total a.1.data b.1.data⟩
  haveI : IsTrans (String × PyVal) keyLE :=
    ⟨fun a b c h1 h2 => strLeb_trans a.1.data b.1.data c.1.data h1 h2⟩
  have hs : (sortByKey p).Pairwise keyLE :=
    List.sorted_insertionSort keyLE p
  have hne : (sortByKey p).Pairwise fun a b => a.1 ≠ b.1 :=
    List.pairwise_map.mp (keysNodup_sortByKey hn)
  exact hne.and hs

theorem eq_of_strictSorted_lookup_eq :
    ∀ l1 l2 : Params, (l1.Pairwise fun a b => a.1 ≠ b.1 ∧ keyLE a b) →
      (l2.Pairwise fun a b => a.1 ≠ b.1 ∧ keyLE a b) →
      (∀ k, pLookup k l1 = pLookup k l2) → l1 = l2 := by
  intro l1
  induction l1 with
  | nil =>
    intro l2 _ _ heq
    cases l2 with
    | nil => rfl
    | cons kv t =>
      obtain ⟨k, v⟩ := kv
      have h := heq k
      rw [pLookup, pLookup, if_pos rfl] at h
      cases h
  | cons kv1 t1 ih =>
    intro l2 h1 h2 heq
    obtain ⟨k1, v1⟩ := kv1
    cases l2 with
    | nil =>
      have h := heq k1
      rw [pLookup, pLookup, if_pos rfl] at h
      cases h
    | cons kv2 t2 =>
      obtain ⟨k2, v2⟩ := kv2
      have hp1 := List.pairwise_cons.mp h1
      have hp2 := List.pairwise_cons.mp h2
      have hm1 : ((k1, v1) : String × PyVal) ∈ (k2, v2) :: t2 := by
        apply pLookup_some_mem (v := v1)
        rw [← heq k1, pLookup, if_pos rfl]
      have hkv : k1 = k2 ∧ v1 = v2 := by
        rcases List.mem_cons.mp hm1 with h3 | h3
        · exact ⟨congrArg Prod.fst h3, congrArg Prod.snd h3⟩
        · exfalso
          have hlt21 := hp2.1 _ h3
          have hm2 : ((k2, v2) : String × PyVal) ∈ (k1, v1) :: t1 := by
            apply pLookup_some_mem (v := v2)
            rw [heq k2, pLookup, if_pos rfl]
          rcases List.mem_cons.mp hm2 with h4 | h4
          · injection h4 with he hv
            subst he
            exact hlt21.1 rfl
          · have hlt12 := hp1.1 _ h4
            exact hlt21.1 (string_data_inj
              (strLeb_antisymm _ _ hlt21.2 hlt12.2))
      obtain ⟨hk, hv⟩ := hkv
      subst hk
      subst hv
      have htail : ∀ k, pLookup k t1 = pLookup k t2 := by
        intro k
        by_cases hk : k = k1
        · subst hk
          have hn1 : pLookup k t1 = Option.none := by
            rw [pLookup_none_iff]
            intro hmem
            obtain ⟨⟨ka, va⟩, hma, hfa⟩ := List.mem_map.mp hmem
            cases hfa
            exact (hp1.1 (ka, va) hma).1 rfl
          have hn2 : pLookup k t2 = Option.none := by
            rw [pLookup_none_iff]
            intro hmem
            obtain ⟨⟨ka, va⟩, hma, hfa⟩ := List.mem_map.mp hmem
            cases hfa
            exact (hp2.1 (ka, va) hma).1 rfl
          rw [hn1, hn2]
        · have h := heq k
          rw [pLookup, pLookup, if_neg (fun he => hk he.symm),
            if_neg (fun he => hk he.symm)] at h
          exact h
      rw [ih t2 hp1.2 hp2.2 htail]

/-- Equal mappings (regardless of insertion order) have equal key-sorted
canonical item lists. -/
theorem sortByKey_eq_of_equiv {p1 p2 : Params} (h1 : keysNodup p1)
    (h2 : keysNodup p2) (heq : ∀ k, pLookup k p1 = pLookup k p2) :
    sortByKey p1 = sortByKey p2 :=
  eq_of_strictSorted_lookup_eq _ _ (strictSorted_sortByKey h1)
    (strictSorted_sortByKey h2) fun k => by
      rw [pLookup_sortByKey h1, pLookup_sortByKey h2]
      exact heq k

theorem dumps_eq_of_equiv {p1 p2 : Params} (h1 : keysNodup p1)
    (h2 : keysNodup p2) (heq : ∀ k, pLookup k p1 = pLookup k p2) :
    dumps p1 = dumps p2 := by
  unfold dumps
  rw [sortByKey_eq_of_equiv h1 h2 heq]

/-! ## Cache behavior lemmas -/

theorem take256_cons (kv : String × SimResult) (c : Cache) :
    ((kv :: c).take 256) = kv :: c.take 255 := rfl

theorem cachedRun_second_hit (c : Cache) (k : String) :
    (CSMRunner.cachedRun ((CSMRunner.cachedRun c k).2.1) k).1 =
      (CSMRunner.cachedRun c k).1 ∧
    (CSMRunner.cachedRun ((CSMRunner.cachedRun c k).2.1) k).2.2 = 0 := by
  cases h : lruExtract k c with
  | some p =>
    obtain ⟨v, rest⟩ := p
    simp [CSMRunner.cachedRun, h, lruExtract]
  | none =>
    simp [CSMRunner.cachedRun, h, take256_cons, lruExtract]

theorem cachedRun_count (c : Cache) (k : String) :
    (CSMRunner.cachedRun c k).2.2 ≤ 1 := by
  cases h : lruExtract k c with
  | some p => obtain ⟨v, rest⟩ := p; simp [CSMRunner.cachedRun, h]
  | none => simp [CSMRunner.cachedRun, h]

theorem run_of_dumps_ok {p : Params} {s : String} (cache : Cache)
    (h : dumps p = .ok s) :
    CSMRunner.run cache p =
      (.ok (CSMRunner.cachedRun cache (sha256hex s)).1,
        (CSMRunner.cachedRun cache (sha256hex s)).2.1,
        (CSMRunner.cachedRun cache (sha256hex s)).2.2) := by
  unfold CSMRunner.run CSMRunner.key
  rw [h]

/-- C1: for parameter dicts that are equal as mappings (same lookup on
every key, duplicate-free keys, serializable), the fingerprints coincide,
the two runs return the same result, and the underlying computation
executes at most once across both calls, for any starting cache. -/
theorem claim_C1_cache_dedup (p1 p2 : Params) (cache : Cache)
    (h1 : keysNodup p1) (h2 : keysNodup p2)
    (heq : ∀ k, pLookup k p1 = pLookup k p2)
    (hs : (dumps p1).isOk = true) :
    CSMRunner.key p1 = CSMRunner.key p2 ∧
    ∃ r, (CSMRunner.run cache p1).1 = .ok r ∧
      (CSMRunner.run ((CSMRunner.run cache p1).2.1) p2).1 = .ok r ∧
      (CSMRunner.run cache p1).2.2 +
        (CSMRunner.run ((CSMRunner.run cache p1).2.1) p2).2.2 ≤ 1 := by
  have hd : dumps p1 = dumps p2 := dumps_eq_of_equiv h1 h2 heq
  have hkey : CSMRunner.key p1 = CSMRunner.key p2 := by
    unfold CSMRunner.key
    rw [hd]
  refine ⟨hkey, ?_⟩
  cases hdp : dumps p1 with
  | error e => rw [hdp] at hs; cases hs
  | ok s =>
    have hdq : dumps p2 = .ok s := hd ▸ hdp
    have hrun1 := run_of_dumps_ok cache hdp
    rw [hrun1]
    have hrun2 := run_of_dumps_ok (CSMRunner.cachedRun cache (sha256hex s)).2.1 hdq
    rw [hrun2]
    have hsecond := cachedRun_second_hit cache (sha256hex s)
    refine ⟨(CSMRunner.cachedRun cache (sha256hex s)).1, rfl, ?_, ?_⟩
    · rw [hsecond.1]
    · rw [hsecond.2]
      simpa using cachedRun_count cache (sha256hex s)

/-- C1 witness: the same two-key mapping supplied in both insertion
orders, starting from the empty cache. -/
theorem claim_C1_cache_dedup_witness :
    CSMRunner.key [("crop", PyVal.str "rice"), ("region", PyVal.str "Texas")] =
      CSMRunner.key [("region", PyVal.str "Texas"), ("crop", PyVal.str "rice")] ∧
    ∃ r, (CSMRunner.run [] [("crop", PyVal.str "rice"), ("region", PyVal.str "Texas")]).1 = .ok r ∧
      (CSMRunner.run ((CSMRunner.run [] [("crop", PyVal.str "rice"), ("region", PyVal.str "Texas")]).2.1)
        [("region", PyVal.str "Texas"), ("crop", PyVal.str "rice")]).1 = .ok r ∧
      (CSMRunner.run [] [("crop", PyVal.str "rice"), ("region", PyVal.str "Texas")]).2.2 +
        (CSMRunner.run ((CSMRunner.run [] [("crop", PyVal.str "rice"), ("region", PyVal.str "Texas")]).2.1)
          [("region", PyVal.str "Texas"), ("crop", PyVal.str "rice")]).2.2 ≤ 1 := by
  apply claim_C1_cache_dedup
  · decide
  · decide
  · intro k
    by_cases hc : k = "crop"
    · subst hc; rfl
    · by_cases hr : k = "region"
      · subst hr; rfl
      · simp only [pLookup]
        rw [if_neg fun he => hc he.symm, if_neg fun he => hr he.symm,
          if_neg fun he => hr he.symm, if_neg fun he => hc he.symm]
  · decide

/-! ## C9: the simulation stub depends only on the fingerprint -/

theorem lruExtract_mem {c : Cache} {k : String} {v : SimResult} {rest : Cache}
    (h : lruExtract k c = some (v, rest)) : (k, v) ∈ c := by
  induction c generalizing rest with
  | nil => cases h
  | cons kv t ih =>
    obtain ⟨k', v'⟩ := kv
    rw [lruExtract] at h
    by_cases hk : k' = k
    · rw [if_pos hk] at h
      injection h with h'
      injection h' with hv ht
      subst hv
      subst hk
      exact List.mem_cons_self _ _
    · rw [if_neg hk] at h
      cases hlt : lruExtract k t with
      | some q =>
        obtain ⟨v2, t2⟩ := q
        rw [hlt] at h
        injection h with h'
        injection h' with hv ht
        subst hv
        exact List.mem_cons_of_mem _ (ih hlt)
      | none =>
        rw [hlt] at h
        cases h

theorem cachedRun_wf_value {c : Cache} (hwf : CacheWF c) (k : String) :
    (CSMRunner.cachedRun c k).1 = simCompute k := by
  cases h : lruExtract k c with
  | some q =>
    obtain ⟨v, rest⟩ := q
    have hv : v = simCompute k := hwf (k, v) (lruExtract_mem h)
    simp [CSMRunner.cachedRun, h, hv]
  | none => simp [CSMRunner.cachedRun, h]

theorem simCompute_fields (k : String) :
    (simCompute k).yield_kg_ha = 7800 ∧
    (simCompute k).irrigation_mm = 900 ∧
    (simCompute k).planting_date = "auto" ∧
    (simCompute k).maturity_date = "auto+120d" ∧
    (simCompute k).ratoon_possible = true ∧
    (simCompute k).notes = "Stub CSM. Plug in your model in csm_runner.py." ∧
    (simCompute k).sim_id = strTake k 8 :=
  ⟨rfl, rfl, rfl, rfl, rfl, rfl, rfl⟩

/-- C9: for serializable parameter mappings, the run result is the stub
computation of the fingerprint alone: all fields are the fixed constants
except `sim_id`, which is the first 8 characters of the hex fingerprint,
so any two runs agree on every field but `sim_id`. -/
theorem claim_C9_fixed_results (p q : Params) (c c' : Cache) (sp sq : String)
    (r1 r2 : SimResult)
    (hwf : CacheWF c) (hwf' : CacheWF c')
    (hp : dumps p = .ok sp) (hq : dumps q = .ok sq)
    (h1 : (CSMRunner.run c p).1 = .ok r1)
    (h2 : (CSMRunner.run c' q).1 = .ok r2) :
    r1 = simCompute (sha256hex sp) ∧ r2 = simCompute (sha256hex sq) ∧
    r1.yield_kg_ha = 7800 ∧ r1.irrigation_mm = 900 ∧
    r1.planting_date = "auto" ∧ r1.maturity_date = "auto+120d" ∧
    r1.ratoon_possible = true ∧
    r1.sim_id = strTake (sha256hex sp) 8 ∧ r2.sim_id = strTake (sha256hex sq) 8 ∧
    r1.yield_kg_ha = r2.yield_kg_ha ∧ r1.irrigation_mm = r2.irrigation_mm ∧
    r1.planting_date = r2.planting_date ∧ r1.maturity_date = r2.maturity_date ∧
    r1.ratoon_possible = r2.ratoon_possible ∧ r1.notes = r2.notes := by
  have e1 : r1 = simCompute (sha256hex sp) := by
    rw [run_of_dumps_ok c hp] at h1
    injection h1 with h1'
    rw [← h1', cachedRun_wf_value hwf]
  have e2 : r2 = simCompute (sha256hex sq) := by
    rw [run_of_dumps_ok c' hq] at h2
    injection h2 with h2'
    rw [← h2', cachedRun_wf_value hwf']
  subst e1
  subst e2
  have hA := simCompute_fields (sha256hex sp)
  have hB := simCompute_fields (sha256hex sq)
  exact ⟨rfl, rfl, hA.1, hA.2.1, hA.2.2.1, hA.2.2.2.1, hA.2.2.2.2.1,
    hA.2.2.2.2.2.2, hB.2.2.2.2.2.2,
    hA.1.trans hB.1.symm, hA.2.1.trans hB.2.1.symm,
    hA.2.2.1.trans hB.2.2.1.symm, hA.2.2.2.1.trans hB.2.2.2.1.symm,
    hA.2.2.2.2.1.trans hB.2.2.2.2.1.symm,
    hA.2.2.2.2.2.1.trans hB.2.2.2.2.2.1.symm⟩

/-- C9 witness: two distinct single-key mappings run from empty caches. -/
theorem claim_C9_fixed_results_witness :
    simCompute (sha256hex "\x7b\"crop\": \"rice\"\x7d") = simCompute (sha256hex "\x7b\"crop\": \"rice\"\x7d") ∧
    simCompute (sha256hex "\x7b\"crop\": \"wheat\"\x7d") = simCompute (sha256hex "\x7b\"crop\": \"wheat\"\x7d") ∧
    (simCompute (sha256hex "\x7b\"crop\": \"rice\"\x7d")).yield_kg_ha = 7800 ∧
    (simCompute (sha256hex "\x7b\"crop\": \"rice\"\x7d")).irrigation_mm = 900 ∧
    (simCompute (sha256hex "\x7b\"crop\": \"rice\"\x7d")).planting_date = "auto" ∧
    (simCompute (sha256hex "\x7b\"crop\": \"rice\"\x7d")).maturity_date = "auto+120d" ∧
    (simCompute (sha256hex "\x7b\"crop\": \"rice\"\x7d")).ratoon_possible = true ∧
    (simCompute (sha256hex "\x7b\"crop\": \"rice\"\x7d")).sim_id = strTake (sha256hex "\x7b\"crop\": \"rice\"\x7d") 8 ∧
    (simCompute (sha256hex "\x7b\"crop\": \"wheat\"\x7d")).sim_id = strTake (sha256hex "\x7b\"crop\": \"wheat\"\x7d") 8 ∧
    (simCompute (sha256hex "\x7b\"crop\": \"rice\"\x7d")).yield_kg_ha = (simCompute (sha256hex "\x7b\"crop\": \"wheat\"\x7d")).yield_kg_ha ∧
    (simCompute (sha256hex "\x7b\"crop\": \"rice\"\x7d")).irrigation_mm = (simCompute (sha256hex "\x7b\"crop\": \"wheat\"\x7d")).irrigation_mm ∧
    (simCompute (sha256hex "\x7b\"crop\": \"rice\"\x7d")).planting_date = (simCompute (sha256hex "\x7b\"crop\": \"wheat\"\x7d")).planting_date ∧
    (simCompute (sha256hex "\x7b\"crop\": \"rice\"\x7d")).maturity_date = (simCompute (sha256hex "\x7b\"crop\": \"wheat\"\x7d")).maturity_date ∧
    (simCompute (sha256hex "\x7b\"crop\": \"rice\"\x7d")).ratoon_possible = (simCompute (sha256hex "\x7b\"crop\": \"wheat\"\x7d")).ratoon_possible ∧
    (simCompute (sha256hex "\x7b\"crop\": \"rice\"\x7d")).notes = (simCompute (sha256hex "\x7b\"crop\": \"wheat\"\x7d")).notes := by
  apply claim_C9_fixed_results [("crop", PyVal.str "rice")]
    [("crop", PyVal.str "wheat")] [] []
  · intro kv hkv
    cases hkv
  · intro kv hkv
    cases hkv
  · decide
  · decide
  · rw [run_of_dumps_ok [] (show
      dumps [("crop", PyVal.str "rice")] = .ok "\x7b\"crop\": \"rice\"\x7d" by decide)]
    rfl
  · rw [run_of_dumps_ok [] (show
      dumps [("crop", PyVal.str "wheat")] = .ok "\x7b\"crop\": \"wheat\"\x7d" by decide)]
    rfl

/-! ## C4: collaborator failure handling in the pipeline -/

theorem ensure_context_ok (message : String) (context : Option Context) :
    ensure_context message context = .ok
      (heuristic_extract message (context.getD {}),
       find_missing (heuristic_extract message (context.getD {})),
       if pyTruthy (heuristic_extract message (context.getD {})).crop then ""
       else "Which crop are you asking about?") := by
  unfold ensure_context
  rw [find_missing_eq]
  cases h : pyTruthy (heuristic_extract message (context.getD {})).crop <;>
    simp [next_followup, prompts, h]

theorem node_synthesize_reply_isSome (st : GraphState)
    (lO : Except PyErr String) :
    (node_synthesize st lO).reply.isSome = true := rfl

theorem optval_ne_obj (v : Option String) :
    (v.map PyVal.str).getD PyVal.null ≠ PyVal.obj := by
  cases v with
  | none => exact fun h => PyVal.noConfusion h
  | some s => exact fun h => PyVal.noConfusion h

theorem paramsOfContext_no_obj (ctx : Context) :
    ∀ kv ∈ paramsOfContext ctx, kv.2 ≠ PyVal.obj := by
  intro kv hkv
  unfold paramsOfContext at hkv
  simp only [List.mem_cons, List.not_mem_nil, or_false] at hkv
  rcases hkv with h | h | h | h | h | h <;> subst h
  · exact optval_ne_obj ctx.crop
  · exact optval_ne_obj ctx.region
  · exact optval_ne_obj ctx.season
  · exact optval_ne_obj ctx.soil
  · exact optval_ne_obj ctx.water
  · exact optval_ne_obj ctx.planting_method

theorem weatherScan_none (l : List String) :
    weatherScan (fun _ => Option.none) l = weatherFallback := by
  induction l with
  | nil => rfl
  | cons p rest ih => simpa [weatherScan] using ih

theorem csmStage_ok (cache : Cache) (st : GraphState)
    (lO : Except PyErr String) :
    ∃ out, csmStage cache st lO = .ok out ∧ out.1.reply.isSome = true := by
  unfold csmStage
  by_cases hc : can_run_csm st = true
  · rw [if_pos hc]
    obtain ⟨s, hs⟩ := dumps_ok (paramsOfContext_no_obj (st.context.getD {}))
    rw [run_of_dumps_ok cache hs]
    exact ⟨_, rfl, node_synthesize_reply_isSome _ _⟩
  · rw [if_neg hc]
    exact ⟨_, rfl, node_synthesize_reply_isSome _ _⟩

/-- C4 counterexample: the claim as stated is false — a raising
document-retrieval collaborator is not recovered: the nodes have no
try/except, so the pipeline aborts the turn with the exception instead of
producing a reply. -/
theorem claim_C4_counterexample :
    runGraph [] { message := "rice in texas" }
      (.error ⟨"RAG retriever raised"⟩) (.ok []) (.ok []) (.ok "fine") =
      .error ⟨"RAG retriever raised"⟩ := by
  unfold runGraph
  rw [ensure_context_ok]

/-- C4 amended: an exception from the retrieval, analytics or weather
collaborator propagates out of its node and aborts the turn with no reply;
only when all three collaborator calls return (their internal fallbacks
included — e.g. `load_weather` returns its default note when no weather
file is readable) does the turn always complete with a reply, even if
generation fails. -/
theorem claim_C4_amended :
    (∀ (cache : Cache) (st : GraphState) (e : PyErr) csvO wO lO,
      runGraph cache st (.error e) csvO wO lO = .error e) ∧
    (∀ (cache : Cache) (st : GraphState) docs (e : PyErr) wO lO,
      runGraph cache st (.ok docs) (.error e) wO lO = .error e) ∧
    (∀ (cache : Cache) (st : GraphState) docs csv (e : PyErr) lO,
      runGraph cache st (.ok docs) (.ok csv) (.error e) lO = .error e) ∧
    (∀ (cache : Cache) (st : GraphState) docs csv w lO, ∃ out,
      runGraph cache st (.ok docs) (.ok csv) (.ok w) lO = .ok out ∧
        out.1.reply.isSome = true) ∧
    (∀ ctx : Context, load_weather (fun _ => Option.none) ctx = weatherFallback) := by
  refine ⟨?_, ?_, ?_, ?_, ?_⟩
  · intro cache st e csvO wO lO
    unfold runGraph
    rw [ensure_context_ok]
  · intro cache st docs e wO lO
    unfold runGraph
    rw [ensure_context_ok]
  · intro cache st docs csv e lO
    unfold runGraph
    rw [ensure_context_ok]
  · intro cache st docs csv w lO
    unfold runGraph
    rw [ensure_context_ok]
    exact csmStage_ok cache _ lO
  · intro ctx
    unfold load_weather
    exact weatherScan_none _

/-! ## C10: explicitly empty supplied fields clear the session value -/

/-- C10: at the `chat` boundary, a supplied empty-string `crop` overwrites
the prior session value (`{**prior, **supplied}`), and the merged empty
value is indistinguishable from an absent one to the extractor: detection
assigns the same crop whenever a vocabulary word occurs, both results are
falsy when none does, and the missing-fields computation agrees. -/
theorem claim_C10_empty_overwrites (prior s : Context) (message : String)
    (hc : s.crop = some "") :
    (mergeContext prior (some s)).crop = some "" ∧
    ((heuristic_extract message (mergeContext prior (some s))).crop =
      match cropDetect message with
      | some c => some c
      | Option.none => some "") ∧
    ((heuristic_extract message { mergeContext prior (some s) with crop := Option.none }).crop =
      match cropDetect message with
      | some c => some c
      | Option.none => Option.none) ∧
    find_missing (heuristic_extract message (mergeContext prior (some s))) =
      find_missing (heuristic_extract message { mergeContext prior (some s) with crop := Option.none }) := by
  have hm : (mergeContext prior (some s)).crop = some "" := by
    simp [mergeContext, mergeField, hc]
  have hfalsy : pyTruthy (mergeContext prior (some s)).crop = false := by
    rw [hm]; rfl
  have h1 := heuristic_extract_crop message (mergeContext prior (some s)) hfalsy
  have h2 := heuristic_extract_crop message
    { mergeContext prior (some s) with crop := Option.none } rfl
  rw [hm] at h1
  refine ⟨hm, h1, h2, ?_⟩
  rw [find_missing_eq, find_missing_eq, h1, h2]
  cases hd : cropDetect message with
  | none => rfl
  | some c =>
    have := pyTruthy_some_ne c (cropDetect_ne_empty hd)
    simp [this]

/-- C10 witness: prior crop "wheat", supplied crop "", message naming
rice — the prior value is gone and detection proceeds as if absent. -/
theorem claim_C10_empty_overwrites_witness :
    (mergeContext { crop := some "wheat" } (some { crop := some "" })).crop = some "" ∧
    ((heuristic_extract "rice please" (mergeContext { crop := some "wheat" } (some { crop := some "" }))).crop =
      match cropDetect "rice please" with
      | some c => some c
      | Option.none => some "") ∧
    ((heuristic_extract "rice please" { mergeContext { crop := some "wheat" } (some { crop := some "" }) with crop := Option.none }).crop =
      match cropDetect "rice please" with
      | some c => some c
      | Option.none => Option.none) ∧
    find_missing (heuristic_extract "rice please" (mergeContext { crop := some "wheat" } (some { crop := some "" }))) =
      find_missing (heuristic_extract "rice please" { mergeContext { crop := some "wheat" } (some { crop := some "" }) with crop := Option.none }) :=
  claim_C10_empty_overwrites { crop := some "wheat" } { crop := some "" } "rice please" rfl

/-- C8 witness: a message containing "price" (no crop word as a word)
yields `crop="rice"`, and "soybean" yields `crop="soy"`, never
`"soybean"`. -/
theorem claim_C8_substring_detection_witness :
    (heuristic_extract "what is the price of grain" {}).crop = some "rice" ∧
      (heuristic_extract "my soybean field" {}).crop = some "soy" := by
  constructor
  · rw [claim_C8_substring_detection "what is the price of grain" {} rfl]
    decide
  · rw [claim_C8_substring_detection "my soybean field" {} rfl]
    decide

end Holos
